import Mathlib

/-
Verification development for the Valentine heart animation
(src/valentine.py).  The program is a matplotlib animation of the curve

    y = |x|^(2/3) + amplitude * sin(k*x) * sqrt(max(0, 3 - x^2))

driven by a small state machine: a splash screen, a Building phase in
which k ramps from 0 to 50 with smoothstep easing, and a Pulsing phase in
which the completed heart "breathes".  Keyboard and mouse handlers start,
pause, restart, and change the speed of the animation.

We embed the `ValentineHeart` class shallowly: its mutable fields become a
structure `HeartState`, its `_update` animation callback becomes the pure
function `tick`, and the event handlers `_on_key_press`, `_on_click` and
`_on_motion` become pure state transformers.  Real-valued quantities are
modelled over ℝ (floating point modelled as exact reals); pixel
coordinates used only for decidable hit testing are modelled over ℚ; the
figure-to-pixel coordinate transform is an external collaborator and is
taken as a parameter.
-/

namespace Valentine

noncomputable section

/-! ### Constants of the class (`ValentineHeart` class attributes) -/

def K_FINAL : ℕ := 50

def NUM_POINTS : ℕ := 3000

def BUILD_FRAMES : ℕ := 100

def PULSE_FRAMES : ℕ := 60

def INITIAL_FPS : ℕ := 3

def SPLASH_FPS : ℕ := 15

/-! ### Mathematical core -/

/-- The heart curve evaluated on an arbitrary sample list `x`
(the method `_heart_curve` applies it to the fixed samples `self.x`):
`y[i] = |x[i]|^(2/3) + amplitude * sin(k*x[i]) * sqrt(max(0, 3 - x[i]^2))`. -/
def heart_curve_on (x : List ℝ) (k amplitude : ℝ) : List ℝ :=
  x.map (fun u =>
    |u| ^ ((2 : ℝ) / 3) + amplitude * Real.sin (k * u) *
      Real.sqrt (max 0 (3 - u ^ 2)))

/-- The sample domain `self.x = np.linspace(-sqrt 3, sqrt 3, NUM_POINTS)`. -/
def xSamples : List ℝ :=
  (List.range NUM_POINTS).map (fun i =>
    -Real.sqrt 3 + (2 * Real.sqrt 3) * i / (NUM_POINTS - 1))

/-- `_heart_curve` on the fixed sample domain. -/
def heart_curve (k amplitude : ℝ) : List ℝ :=
  heart_curve_on xSamples k amplitude

/-- Smoothstep easing `_ease_in_out`: clip `t` to `[0,1]`, then
`t * t * (3 - 2 * t)`.  `np.clip(t, 0, 1) = min 1 (max 0 t)`. -/
def ease_in_out (t : ℝ) : ℝ :=
  let u := min 1 (max 0 t)
  u * u * (3 - 2 * u)

/-! ### The animation state -/

/-- The text shown by the status message `self._message`. -/
inductive Msg where
  | noMsg      -- the empty string
  | made       -- the completion message
  | pausedNote -- the pause hint
  deriving DecidableEq, Repr

/-- The mutable state of a `ValentineHeart` instance: animation counters
and flags, plus the mutable display state of the figure elements the
handlers touch. -/
structure HeartState where
  /-- `self._frame` -/
  frame : ℕ
  /-- `self._paused` -/
  paused : Bool
  /-- `self._fps` -/
  fps : ℕ
  /-- `self._completed` -/
  completed : Bool
  /-- `self._started` -/
  started : Bool
  /-- `self._splash_tick` -/
  splashTick : ℕ
  /-- `self._hovering_btn` -/
  hoveringBtn : Bool
  /-- the animation timer interval in milliseconds -/
  interval : ℕ
  /-- whether `plt.close` has been requested -/
  closed : Bool
  /-- whether the splash elements are still on the figure -/
  splashVisible : Bool
  /-- alpha of the start-button glow patch -/
  btnGlowAlpha : ℝ
  /-- whether the button face shows the hover colour -/
  btnHover : Bool
  /-- alpha of the button patch -/
  btnAlpha : ℝ
  /-- line width of the button patch -/
  btnLinewidth : ℝ
  /-- numeric value shown by the `k = ...` readout -/
  dispK : ℝ
  /-- x data of the curve layers -/
  dispX : List ℝ
  /-- y data of the curve layers -/
  dispY : List ℝ
  /-- which status message is displayed -/
  dispMsg : Msg
  /-- alpha of the status message -/
  msgAlpha : ℝ
  /-- alpha of the core line (`0.95 * alpha_factor`) -/
  coreAlpha : ℝ
  /-- alpha of the inner glow line (`0.25 * alpha_factor`) -/
  glowInnerAlpha : ℝ
  /-- alpha of the outer glow line (`0.10 * alpha_factor`) -/
  glowOuterAlpha : ℝ

/-- The state right after `__init__` and `run` (the timer starts at the
splash FPS). -/
def init : HeartState where
  frame := 0
  paused := false
  fps := INITIAL_FPS
  completed := false
  started := false
  splashTick := 0
  hoveringBtn := false
  interval := 1000 / SPLASH_FPS
  closed := false
  splashVisible := true
  btnGlowAlpha := 0.12
  btnHover := false
  btnAlpha := 0.95
  btnLinewidth := 2
  dispK := 0
  dispX := []
  dispY := []
  dispMsg := Msg.noMsg
  msgAlpha := 0
  coreAlpha := 0.95
  glowInnerAlpha := 0.25
  glowOuterAlpha := 0.10

/-! ### The animation tick (`_update`) -/

/-- The `(k, amplitude, alpha_factor)` triple `_update` computes for the
current frame: the Building branch when `frame < BUILD_FRAMES`, the
Pulsing branch otherwise. -/
def tickParams (frame : ℕ) : ℝ × ℝ × ℝ :=
  if frame < BUILD_FRAMES then
    let t : ℝ := (frame : ℝ) / ((max 1 (BUILD_FRAMES - 1) : ℕ) : ℝ)
    ((K_FINAL : ℝ) * ease_in_out t, 0.9, 0.4 + 0.6 * t)
  else
    let pulse_idx : ℕ := frame - BUILD_FRAMES
    let breath := Real.sin (2 * Real.pi * (pulse_idx : ℝ) / 20)
    ((K_FINAL : ℝ), 0.9 + 0.035 * breath, 1.0)

/-- One animation frame, the `_update` callback: splash pulsing before
start, a no-op while paused, otherwise compute the frame parameters,
update the completion latch and message, redraw the curve and readout,
advance the frame counter and wrap it at the end of the pulse window. -/
def tick (s : HeartState) : HeartState :=
  if s.started = false then
    let t := s.splashTick + 1
    { s with
        splashTick := t
        btnGlowAlpha := max 0 (0.08 + 0.14 * Real.sin (2 * Real.pi * (t : ℝ) / 30)) }
  else if s.paused = true then
    s
  else
    let frame := s.frame
    let s1 :=
      if frame < BUILD_FRAMES then
        { s with completed := false }
      else if s.completed = false then
        { s with completed := true, dispMsg := Msg.made, msgAlpha := 0.7 }
      else
        s
    let p := tickParams frame
    let y := heart_curve p.1 p.2.1
    let frame' := frame + 1
    { s1 with
        dispX := xSamples
        dispY := y
        coreAlpha := 0.95 * p.2.2
        glowInnerAlpha := 0.25 * p.2.2
        glowOuterAlpha := 0.10 * p.2.2
        dispK := p.1
        frame := if BUILD_FRAMES + PULSE_FRAMES ≤ frame' then BUILD_FRAMES else frame' }

/-! ### Interactivity (`_start_animation`, `_on_key_press`, `_on_click`,
`_on_motion`) -/

/-- The keys the handlers distinguish. -/
inductive Key where
  | space | enter | keyR | keyQ | escape | up | down | other
  deriving DecidableEq, Repr

/-- `_start_animation`: dismiss the splash screen and switch the timer to
the animation FPS. -/
def start_anim (s : HeartState) : HeartState :=
  { s with
      started := true
      splashVisible := false
      interval := 1000 / s.fps }

/-- The keyboard handler `_on_key_press`. -/
def on_key_press (s : HeartState) (key : Key) : HeartState :=
  if s.started = false then
    match key with
    | Key.space | Key.enter => start_anim s
    | Key.keyQ | Key.escape => { s with closed := true }
    | _ => s
  else
    match key with
    | Key.space =>
      let paused' := !s.paused
      if paused' = true then
        { s with paused := paused', dispMsg := Msg.pausedNote, msgAlpha := 0.6 }
      else if s.completed = true then
        { s with paused := paused', dispMsg := Msg.made, msgAlpha := 0.7 }
      else
        { s with paused := paused', dispMsg := Msg.noMsg, msgAlpha := 0 }
    | Key.keyR =>
      { s with
          frame := 0
          completed := false
          paused := false
          dispMsg := Msg.noMsg
          msgAlpha := 0
          dispX := []
          dispY := []
          dispK := 0 }
    | Key.keyQ | Key.escape => { s with closed := true }
    | Key.up =>
      let fps' := min 30 (s.fps + 1)
      { s with fps := fps', interval := 1000 / fps' }
    | Key.down =>
      let fps' := max 1 (s.fps - 1)
      { s with fps := fps', interval := 1000 / fps' }
    | _ => s

/-- `_is_over_button`: `False` when a pixel coordinate is missing,
otherwise convert pixels to figure coordinates through the (external)
inverted figure transform `tf` and test the fixed button rectangle
centred at `(0.5, 0.46)` with half-width `0.13` and half-height `0.045`. -/
def is_over_button (tf : ℚ × ℚ → ℚ × ℚ) (ex ey : Option ℚ) : Bool :=
  match ex, ey with
  | some px, some py =>
    let f := tf (px, py)
    decide ((0.5 - 0.13 ≤ f.1 ∧ f.1 ≤ 0.5 + 0.13) ∧
            (0.46 - 0.045 ≤ f.2 ∧ f.2 ≤ 0.46 + 0.045))
  | _, _ => false

/-- The mouse click handler `_on_click`. -/
def on_click (tf : ℚ × ℚ → ℚ × ℚ) (ex ey : Option ℚ) (s : HeartState) :
    HeartState :=
  if s.started = false then
    if is_over_button tf ex ey = true then start_anim s else s
  else
    s

/-- The mouse motion handler `_on_motion` (hover highlight on the start
button). -/
def on_motion (tf : ℚ × ℚ → ℚ × ℚ) (ex ey : Option ℚ) (s : HeartState) :
    HeartState :=
  if s.started = false then
    let over := is_over_button tf ex ey
    if over = true ∧ s.hoveringBtn = false then
      { s with hoveringBtn := true, btnHover := true, btnAlpha := 1.0,
               btnLinewidth := 2.5 }
    else if over = false ∧ s.hoveringBtn = true then
      { s with hoveringBtn := false, btnHover := false, btnAlpha := 0.95,
               btnLinewidth := 2.0 }
    else
      s
  else
    s

/-! ### Reachability -/

/-- One event of the program: a timer tick, a key press, a click or a
mouse motion (with any external coordinate transform and any, possibly
missing, pixel coordinates). -/
inductive Step : HeartState → HeartState → Prop where
  | tick (s : HeartState) : Step s (tick s)
  | key (s : HeartState) (k : Key) : Step s (on_key_press s k)
  | click (s : HeartState) (tf : ℚ × ℚ → ℚ × ℚ) (ex ey : Option ℚ) :
      Step s (on_click tf ex ey s)
  | motion (s : HeartState) (tf : ℚ × ℚ → ℚ × ℚ) (ex ey : Option ℚ) :
      Step s (on_motion tf ex ey s)

/-- States reachable from the initial state by any sequence of events. -/
def Reachable (s : HeartState) : Prop :=
  Relation.ReflTransGen Step init s

/-- The started state used for whole-run temporal claims: start pressed on
the initial state (Building phase, frame 0, completion latch down). -/
def s0 : HeartState :=
  start_anim init

/-- The frame counter produced by an unpaused started tick: increment and
wrap to `BUILD_FRAMES` at the end of the pulse window. -/
def nextFrame (n : ℕ) : ℕ :=
  if BUILD_FRAMES + PULSE_FRAMES ≤ n + 1 then BUILD_FRAMES else n + 1

/-- The frame counter after `n` unpaused ticks from frame 0: counts up to
`BUILD_FRAMES + PULSE_FRAMES - 1`, then cycles inside the pulse window. -/
def frameAfter (n : ℕ) : ℕ :=
  if n < BUILD_FRAMES + PULSE_FRAMES then n
  else BUILD_FRAMES + (n - BUILD_FRAMES) % PULSE_FRAMES

end

/-! ### Helper lemmas about single ticks -/

theorem tick_started (s : HeartState) : (tick s).started = s.started := by
  dsimp only [tick]
  split_ifs <;> rfl

theorem tick_paused_pres (s : HeartState) : (tick s).paused = s.paused := by
  dsimp only [tick]
  split_ifs <;> rfl

theorem tick_fps (s : HeartState) : (tick s).fps = s.fps := by
  dsimp only [tick]
  split_ifs <;> rfl

theorem tick_paused_eq (s : HeartState) (h1 : s.started = true)
    (h2 : s.paused = true) : tick s = s := by
  simp [tick, h1, h2]

theorem tick_frame (s : HeartState) (h1 : s.started = true)
    (h2 : s.paused = false) : (tick s).frame = nextFrame s.frame := by
  dsimp only [tick, nextFrame]
  simp only [h1, h2]
  split_ifs <;> simp_all

theorem tick_frame_splash (s : HeartState) (h1 : s.started = false) :
    (tick s).frame = s.frame := by
  simp [tick, h1]

theorem tick_completed (s : HeartState) (h1 : s.started = true)
    (h2 : s.paused = false) :
    (tick s).completed = decide (BUILD_FRAMES ≤ s.frame) := by
  dsimp only [tick]
  simp only [h1, h2]
  split_ifs <;> simp_all

theorem tick_dispK (s : HeartState) (h1 : s.started = true)
    (h2 : s.paused = false) : (tick s).dispK = (tickParams s.frame).1 := by
  dsimp only [tick]
  simp only [h1, h2]
  split_ifs <;> simp_all

theorem tick_dispMsg (s : HeartState) (h1 : s.started = true)
    (h2 : s.paused = false) :
    (tick s).dispMsg =
      if s.frame < BUILD_FRAMES then s.dispMsg
      else if s.completed = false then Msg.made
      else s.dispMsg := by
  dsimp only [tick]
  simp only [h1, h2]
  split_ifs <;> simp_all

-- The animation step never reads nor writes the fps field: changing the
-- speed commutes with a tick, so the per-tick math is unaffected by
-- speed changes.
set_option maxRecDepth 8000 in
theorem tick_fps_comm (s : HeartState) (f : ℕ) :
    tick { s with fps := f } = { tick s with fps := f } := by
  cases s
  dsimp only [tick]
  split_ifs <;> rfl

theorem nextFrame_frameAfter (n : ℕ) :
    nextFrame (frameAfter n) = frameAfter (n + 1) := by
  unfold nextFrame frameAfter BUILD_FRAMES PULSE_FRAMES
  split_ifs <;> omega

theorem frameAfter_ge_iff (n : ℕ) :
    BUILD_FRAMES ≤ frameAfter n ↔ BUILD_FRAMES ≤ n := by
  unfold frameAfter BUILD_FRAMES PULSE_FRAMES
  split_ifs <;> omega

/-- Evolution of the run started at frame 0: `started` and `paused` are
stable, the frame counter follows `frameAfter`, the completion latch is
raised exactly on the tick after the hundredth, and the completion
message appears with it. -/
theorem tickN_props (s : HeartState) (h1 : s.started = true)
    (h2 : s.paused = false) (h3 : s.frame = 0) (h4 : s.completed = false) :
    ∀ n, (tick^[n] s).started = true ∧ (tick^[n] s).paused = false ∧
      (tick^[n] s).frame = frameAfter n ∧
      ((tick^[n] s).completed = true ↔ BUILD_FRAMES + 1 ≤ n) ∧
      (tick^[n] s).dispMsg =
        (if BUILD_FRAMES + 1 ≤ n then Msg.made else s.dispMsg) := by
  intro n
  induction n with
  | zero =>
    refine ⟨h1, h2, ?_, ?_, ?_⟩ <;>
      simp [h3, h4, frameAfter, BUILD_FRAMES, PULSE_FRAMES]
  | succ n ih =>
    obtain ⟨i1, i2, i3, i4, i5⟩ := ih
    rw [Function.iterate_succ_apply']
    refine ⟨by rw [tick_started]; exact i1, by rw [tick_paused_pres]; exact i2,
      ?_, ?_, ?_⟩
    · rw [tick_frame _ i1 i2, i3, nextFrame_frameAfter]
    · rw [tick_completed _ i1 i2, i3]
      simp only [decide_eq_true_eq, frameAfter_ge_iff]
      unfold BUILD_FRAMES
      omega
    · rw [tick_dispMsg _ i1 i2, i3, i5]
      rcases lt_trichotomy n BUILD_FRAMES with hn | hn | hn
      · have hlt : frameAfter n < BUILD_FRAMES := by
          unfold frameAfter BUILD_FRAMES PULSE_FRAMES at *
          split_ifs <;> omega
        rw [if_pos hlt]
        unfold BUILD_FRAMES at *
        split_ifs <;> first | rfl | omega
      · have hge : BUILD_FRAMES ≤ frameAfter n := (frameAfter_ge_iff n).2 hn.ge
        have hc : (tick^[n] s).completed = false := by
          rcases Bool.eq_false_or_eq_true (tick^[n] s).completed with h | h
          · exact absurd (i4.1 h) (by omega)
          · exact h
        rw [if_neg (not_lt.2 hge), if_pos hc,
          if_pos (by omega : BUILD_FRAMES + 1 ≤ n + 1)]
      · have hge : BUILD_FRAMES ≤ frameAfter n := (frameAfter_ge_iff n).2 hn.le
        have hc : (tick^[n] s).completed = true := i4.2 (by omega)
        rw [if_neg (not_lt.2 hge), if_neg (by simp [hc]),
          if_pos (by omega : BUILD_FRAMES + 1 ≤ n),
          if_pos (by omega : BUILD_FRAMES + 1 ≤ n + 1)]

/-! ### Helper lemmas about the event handlers -/

theorem key_frame_le (s : HeartState) (k : Key) :
    (on_key_press s k).frame ≤ s.frame := by
  cases k <;> dsimp only [on_key_press, start_anim] <;> split_ifs <;> simp

theorem click_frame (tf : ℚ × ℚ → ℚ × ℚ) (ex ey : Option ℚ) (s : HeartState) :
    (on_click tf ex ey s).frame = s.frame := by
  dsimp only [on_click, start_anim]
  split_ifs <;> rfl

theorem motion_frame (tf : ℚ × ℚ → ℚ × ℚ) (ex ey : Option ℚ) (s : HeartState) :
    (on_motion tf ex ey s).frame = s.frame := by
  dsimp only [on_motion]
  split_ifs <;> rfl

/-- Every event preserves the window bound on the frame counter. -/
theorem step_frame_lt {s s' : HeartState} (h : Step s s')
    (hs : s.frame < BUILD_FRAMES + PULSE_FRAMES) :
    s'.frame < BUILD_FRAMES + PULSE_FRAMES := by
  cases h with
  | tick =>
    rcases Bool.eq_false_or_eq_true s.started with h1 | h1
    · rcases Bool.eq_false_or_eq_true s.paused with h2 | h2
      · rw [tick_paused_eq s h1 h2]; exact hs
      · rw [tick_frame s h1 h2]
        unfold nextFrame BUILD_FRAMES PULSE_FRAMES
        split_ifs <;> omega
    · rw [tick_frame_splash s h1]; exact hs
  | key k => exact lt_of_le_of_lt (key_frame_le s k) hs
  | click tf ex ey => rw [click_frame]; exact hs
  | motion tf ex ey => rw [motion_frame]; exact hs

theorem key_up_fps (s : HeartState) (h : s.started = true) :
    (on_key_press s Key.up).fps = min 30 (s.fps + 1) ∧
    (on_key_press s Key.up).started = true := by
  dsimp only [on_key_press]
  rw [h]
  exact ⟨rfl, rfl⟩

theorem key_down_fps (s : HeartState) (h : s.started = true) :
    (on_key_press s Key.down).fps = max 1 (s.fps - 1) ∧
    (on_key_press s Key.down).started = true := by
  dsimp only [on_key_press]
  rw [h]
  exact ⟨rfl, rfl⟩

theorem up_iter_fps (s : HeartState) (h : s.started = true) :
    ∀ n : ℕ, 1 ≤ n →
      ((fun s => on_key_press s Key.up)^[n] s).fps = min 30 (s.fps + n) ∧
      ((fun s => on_key_press s Key.up)^[n] s).started = true := by
  intro n hn
  induction n with
  | zero => omega
  | succ n ih =>
    rcases Nat.eq_zero_or_pos n with h0 | h0
    · subst h0
      simpa using key_up_fps s h
    · obtain ⟨i1, i2⟩ := ih h0
      rw [Function.iterate_succ_apply']
      obtain ⟨j1, j2⟩ := key_up_fps _ i2
      refine ⟨?_, j2⟩
      rw [j1, i1]
      omega

theorem down_iter_fps (s : HeartState) (h : s.started = true) :
    ∀ n : ℕ, 1 ≤ n →
      ((fun s => on_key_press s Key.down)^[n] s).fps = max 1 (s.fps - n) ∧
      ((fun s => on_key_press s Key.down)^[n] s).started = true := by
  intro n hn
  induction n with
  | zero => omega
  | succ n ih =>
    rcases Nat.eq_zero_or_pos n with h0 | h0
    · subst h0
      simpa using key_down_fps s h
    · obtain ⟨i1, i2⟩ := ih h0
      rw [Function.iterate_succ_apply']
      obtain ⟨j1, j2⟩ := key_down_fps _ i2
      refine ⟨?_, j2⟩
      rw [j1, i1]
      omega

/-! ### Helper lemmas about the easing function -/

theorem clip_nonneg (t : ℝ) : 0 ≤ min 1 (max 0 t) :=
  le_min (by norm_num) (le_max_left 0 t)

theorem clip_le_one (t : ℝ) : min 1 (max 0 t) ≤ 1 :=
  min_le_left 1 _

theorem clip_of_mem (t : ℝ) (h0 : 0 ≤ t) (h1 : t ≤ 1) :
    min 1 (max 0 t) = t := by
  rw [max_eq_right h0, min_eq_right h1]

theorem ease_mono (a b : ℝ) (h : a ≤ b) :
    ease_in_out a ≤ ease_in_out b := by
  unfold ease_in_out
  dsimp only
  set u := min 1 (max 0 a) with hu
  set v := min 1 (max 0 b) with hv
  have h0u : 0 ≤ u := clip_nonneg a
  have hv1 : v ≤ 1 := clip_le_one b
  have huv : u ≤ v := min_le_min (le_refl 1) (max_le_max (le_refl 0) h)
  nlinarith [mul_nonneg h0u (sub_nonneg.2 huv),
    mul_nonneg (sub_nonneg.2 huv) (sub_nonneg.2 hv1),
    sq_nonneg (v - u), sq_nonneg (v + u),
    mul_nonneg (mul_nonneg h0u (sub_nonneg.2 huv)) (sub_nonneg.2 hv1)]

/-! ### Helper lemmas bounding the curve formula -/

theorem sqrt3_le_two : Real.sqrt 3 ≤ 2 := by
  nlinarith [Real.sq_sqrt (by norm_num : (0:ℝ) ≤ 3), Real.sqrt_nonneg 3]

theorem env_le_two (u : ℝ) : Real.sqrt (max 0 (3 - u ^ 2)) ≤ 2 := by
  have h1 : max 0 (3 - u ^ 2) ≤ 3 := by
    apply max_le (by norm_num)
    nlinarith [sq_nonneg u]
  calc Real.sqrt (max 0 (3 - u ^ 2)) ≤ Real.sqrt 3 := Real.sqrt_le_sqrt h1
    _ ≤ 2 := sqrt3_le_two

theorem base_le_two (u : ℝ) (h : |u| ≤ 2) : |u| ^ ((2:ℝ)/3) ≤ 2 := by
  calc |u| ^ ((2:ℝ)/3) ≤ 2 ^ ((2:ℝ)/3) :=
        Real.rpow_le_rpow (abs_nonneg u) h (by norm_num)
    _ ≤ 2 ^ (1:ℝ) :=
        Real.rpow_le_rpow_of_exponent_le (by norm_num) (by norm_num)
    _ = 2 := Real.rpow_one 2

theorem elem_bound (k amplitude u : ℝ) (hl : -Real.sqrt 3 ≤ u)
    (hr : u ≤ Real.sqrt 3) :
    |(|u| ^ ((2:ℝ)/3) + amplitude * Real.sin (k * u) *
      Real.sqrt (max 0 (3 - u ^ 2)))| ≤ 2 + |amplitude| * 2 := by
  have hu2 : |u| ≤ 2 := (abs_le.2 ⟨hl, hr⟩).trans sqrt3_le_two
  have h1 : |(|u| ^ ((2:ℝ)/3))| ≤ 2 := by
    rw [abs_of_nonneg (Real.rpow_nonneg (abs_nonneg u) _)]
    exact base_le_two u hu2
  have h2 : |amplitude * Real.sin (k * u) * Real.sqrt (max 0 (3 - u ^ 2))| ≤
      |amplitude| * 2 := by
    rw [abs_mul, abs_mul]
    have hs : |Real.sin (k * u)| ≤ 1 :=
      abs_le.2 ⟨Real.neg_one_le_sin _, Real.sin_le_one _⟩
    have he : |Real.sqrt (max 0 (3 - u ^ 2))| ≤ 2 := by
      rw [abs_of_nonneg (Real.sqrt_nonneg _)]
      exact env_le_two u
    calc |amplitude| * |Real.sin (k * u)| * |Real.sqrt (max 0 (3 - u ^ 2))|
        ≤ |amplitude| * 1 * 2 := by
          apply mul_le_mul _ he (abs_nonneg _) (by positivity)
          exact mul_le_mul_of_nonneg_left hs (abs_nonneg _)
      _ = |amplitude| * 2 := by ring
  calc |(|u| ^ ((2:ℝ)/3) + amplitude * Real.sin (k * u) *
      Real.sqrt (max 0 (3 - u ^ 2)))| ≤
        |(|u| ^ ((2:ℝ)/3))| + |amplitude * Real.sin (k * u) *
          Real.sqrt (max 0 (3 - u ^ 2))| := abs_add _ _
    _ ≤ 2 + |amplitude| * 2 := add_le_add h1 h2

/-! ### The claims -/

/-- C9: `_ease_in_out` clamps its input to `[0,1]` and returns
`3t² - 2t³` of the clamped value; hence `ease 0 = 0`, `ease 1 = 1`,
`ease (1/2) = 1/2`, `ease` is monotone non-decreasing on `[0,1]`, and
`ease t = 1 - ease (1 - t)` on `[0,1]`. -/
theorem claim_C9_ease :
    (∀ t : ℝ, ease_in_out t =
      3 * min 1 (max 0 t) ^ 2 - 2 * min 1 (max 0 t) ^ 3) ∧
    (∀ t : ℝ, 0 ≤ t → t ≤ 1 → ease_in_out t = 3 * t ^ 2 - 2 * t ^ 3) ∧
    ease_in_out 0 = 0 ∧ ease_in_out 1 = 1 ∧ ease_in_out (1/2) = 1/2 ∧
    (∀ a b : ℝ, 0 ≤ a → a ≤ b → b ≤ 1 →
      ease_in_out a ≤ ease_in_out b) ∧
    (∀ t : ℝ, 0 ≤ t → t ≤ 1 →
      ease_in_out t = 1 - ease_in_out (1 - t)) := by
  have hpoly : ∀ t : ℝ, ease_in_out t =
      3 * min 1 (max 0 t) ^ 2 - 2 * min 1 (max 0 t) ^ 3 := by
    intro t
    unfold ease_in_out
    dsimp only
    ring
  have hid : ∀ t : ℝ, 0 ≤ t → t ≤ 1 →
      ease_in_out t = 3 * t ^ 2 - 2 * t ^ 3 := by
    intro t h0 h1
    rw [hpoly, clip_of_mem t h0 h1]
  refine ⟨hpoly, hid, ?_, ?_, ?_, ?_, ?_⟩
  · rw [hid 0 le_rfl (by norm_num)]; ring
  · rw [hid 1 (by norm_num) le_rfl]; ring
  · rw [hid (1/2) (by norm_num) (by norm_num)]; norm_num
  · intro a b _ hab _
    exact ease_mono a b hab
  · intro t h0 h1
    rw [hid t h0 h1, hid (1 - t) (by linarith) (by linarith)]
    ring

/-- C9 witness: the claim evaluated at concrete points `0.25 ≤ 0.75`. -/
theorem claim_C9_ease_witness :
    ease_in_out (1/4) = 3 * (1/4 : ℝ) ^ 2 - 2 * (1/4 : ℝ) ^ 3 ∧
    ease_in_out (1/4) ≤ ease_in_out (3/4) ∧
    ease_in_out (1/4) = 1 - ease_in_out (1 - 1/4) := by
  obtain ⟨-, hid, -, -, -, hmono, hsym⟩ := claim_C9_ease
  exact ⟨hid (1/4) (by norm_num) (by norm_num),
    hmono (1/4) (3/4) (by norm_num) (by norm_num) (by norm_num),
    hsym (1/4) (by norm_num) (by norm_num)⟩

/-- C3: the curve evaluator maps a sample list elementwise through
`y = |x|^(2/3) + amplitude * sin(k*x) * sqrt(max(0, 3 - x^2))`, preserving
the length; the clamp keeps the square-root argument non-negative for
every input, and on the domain `[-√3, √3]` every output is bounded (no
NaN or Infinity). -/
theorem claim_C3_curve :
    ∀ (k amplitude : ℝ) (x : List ℝ),
      (heart_curve_on x k amplitude).length = x.length ∧
      heart_curve_on x k amplitude = x.map (fun u =>
        |u| ^ ((2:ℝ)/3) + amplitude * Real.sin (k * u) *
          Real.sqrt (max 0 (3 - u ^ 2))) ∧
      (∀ u : ℝ, 0 ≤ max 0 (3 - u ^ 2)) ∧
      ((∀ u ∈ x, -Real.sqrt 3 ≤ u ∧ u ≤ Real.sqrt 3) →
        ∀ y ∈ heart_curve_on x k amplitude, |y| ≤ 2 + |amplitude| * 2) := by
  intro k amplitude x
  refine ⟨List.length_map x _, rfl, fun u => le_max_left 0 _, ?_⟩
  intro hdom y hy
  obtain ⟨u, hu, rfl⟩ := List.mem_map.1 hy
  exact elem_bound k amplitude u (hdom u hu).1 (hdom u hu).2

/-- C3 witness: the claim evaluated at `k = 1`, `amplitude = 1`,
`x = [0]`. -/
theorem claim_C3_curve_witness :
    (heart_curve_on [(0:ℝ)] 1 1).length = 1 ∧
    |(|(0:ℝ)| ^ ((2:ℝ)/3) + 1 * Real.sin (1 * 0) *
      Real.sqrt (max 0 (3 - (0:ℝ) ^ 2)))| ≤ 2 + |(1:ℝ)| * 2 := by
  obtain ⟨h1, -, -, h4⟩ := claim_C3_curve 1 1 [(0:ℝ)]
  refine ⟨by simpa using h1, ?_⟩
  apply h4
  · intro u hu
    rw [List.mem_singleton] at hu
    subst hu
    exact ⟨neg_nonpos.2 (Real.sqrt_nonneg 3), Real.sqrt_nonneg 3⟩
  · simp [heart_curve_on]

/-- C2: every unpaused started tick taken with `frame < BUILD_FRAMES`
produces the Building parameters `t = frame/(BUILD_FRAMES-1)`,
`k = K_FINAL * ease(t)`, `amplitude = 0.9`, `alphaFactor = 0.4 + 0.6*t`,
and shows that `k` on the readout; 100 ticks from the Building start
land in the Pulsing window (`frame ≥ BUILD_FRAMES`) with `k = 50` shown
by the hundredth tick. -/
theorem claim_C2_building :
    (∀ s : HeartState, s.started = true → s.paused = false →
      s.frame < BUILD_FRAMES →
        tickParams s.frame =
          ((K_FINAL : ℝ) *
             ease_in_out ((s.frame : ℝ) / ((BUILD_FRAMES : ℝ) - 1)),
           0.9,
           0.4 + 0.6 * ((s.frame : ℝ) / ((BUILD_FRAMES : ℝ) - 1))) ∧
        (tick s).dispK =
          (K_FINAL : ℝ) *
            ease_in_out ((s.frame : ℝ) / ((BUILD_FRAMES : ℝ) - 1))) ∧
    BUILD_FRAMES ≤ (tick^[BUILD_FRAMES] s0).frame ∧
    (tick^[BUILD_FRAMES] s0).dispK = 50 := by
  have hparams : ∀ n : ℕ, n < BUILD_FRAMES →
      tickParams n =
        ((K_FINAL : ℝ) * ease_in_out ((n : ℝ) / ((BUILD_FRAMES : ℝ) - 1)),
         0.9, 0.4 + 0.6 * ((n : ℝ) / ((BUILD_FRAMES : ℝ) - 1))) := by
    intro n hn
    unfold tickParams
    rw [if_pos hn]
    norm_num [BUILD_FRAMES]
  have hs0 : s0.started = true ∧ s0.paused = false ∧ s0.frame = 0 ∧
      s0.completed = false := ⟨rfl, rfl, rfl, rfl⟩
  refine ⟨?_, ?_, ?_⟩
  · intro s h1 h2 h3
    exact ⟨hparams s.frame h3, by rw [tick_dispK s h1 h2, hparams s.frame h3]⟩
  · obtain ⟨-, -, hf, -, -⟩ :=
      tickN_props s0 hs0.1 hs0.2.1 hs0.2.2.1 hs0.2.2.2 BUILD_FRAMES
    rw [hf]
    unfold frameAfter BUILD_FRAMES PULSE_FRAMES
    norm_num
  · obtain ⟨h1, h2, hf, -, -⟩ :=
      tickN_props s0 hs0.1 hs0.2.1 hs0.2.2.1 hs0.2.2.2 (BUILD_FRAMES - 1)
    have hiter : tick^[BUILD_FRAMES] s0 = tick (tick^[BUILD_FRAMES - 1] s0) := by
      show tick^[99 + 1] s0 = tick (tick^[99] s0)
      rw [Function.iterate_succ_apply']
    rw [hiter, tick_dispK _ h1 h2, hf,
      hparams (frameAfter (BUILD_FRAMES - 1)) (by
        unfold frameAfter BUILD_FRAMES PULSE_FRAMES
        norm_num)]
    unfold frameAfter BUILD_FRAMES PULSE_FRAMES K_FINAL
    norm_num [ease_in_out]

/-- C2 witness: the Building-tick conjunct applied at the concrete
started state `s0` (frame 0). -/
theorem claim_C2_building_witness :
    tickParams s0.frame =
      ((K_FINAL : ℝ) * ease_in_out ((s0.frame : ℝ) / ((BUILD_FRAMES : ℝ) - 1)),
       0.9, 0.4 + 0.6 * ((s0.frame : ℝ) / ((BUILD_FRAMES : ℝ) - 1))) ∧
    BUILD_FRAMES ≤ (tick^[BUILD_FRAMES] s0).frame := by
  obtain ⟨hb, hp, -⟩ := claim_C2_building
  exact ⟨(hb s0 rfl rfl (by norm_num [s0, start_anim, init, BUILD_FRAMES])).1, hp⟩

/-- C4: starting the run at frame 0 with the latch down, the completion
latch `completed` is raised exactly on the first Pulsing tick (the tick
after the hundredth) and stays raised for every later tick, wraps
included, and the completion message appears exactly then. -/
theorem claim_C4_latch :
    ∀ n : ℕ,
      ((tick^[n] s0).completed = true ↔ BUILD_FRAMES + 1 ≤ n) ∧
      ((tick^[n] s0).dispMsg = Msg.made ↔ BUILD_FRAMES + 1 ≤ n) := by
  intro n
  obtain ⟨-, -, -, hc, hm⟩ := tickN_props s0 rfl rfl rfl rfl n
  refine ⟨hc, ?_⟩
  rw [hm]
  constructor
  · intro h
    by_contra hn
    rw [if_neg hn] at h
    exact absurd h (by simp [s0, start_anim, init])
  · intro h
    rw [if_pos h]

/-- C4 witness: the latch is still down after 100 ticks and raised after
101 ticks. -/
theorem claim_C4_latch_witness :
    ¬((tick^[(100:ℕ)] s0).completed = true) ∧
    (tick^[(101:ℕ)] s0).completed = true ∧
    (tick^[(101:ℕ)] s0).dispMsg = Msg.made := by
  refine ⟨fun h => ?_, ?_, ?_⟩
  · have := ((claim_C4_latch 100).1).1 h
    unfold BUILD_FRAMES at this
    omega
  · exact ((claim_C4_latch 101).1).2 (by unfold BUILD_FRAMES; omega)
  · exact ((claim_C4_latch 101).2).2 (by unfold BUILD_FRAMES; omega)

/-- C5: the restart key on any started state resets the frame counter,
the completion latch and the pause flag, clears the displayed curve,
readout and message, stays started (never back to Splash), and leaves
the machine below `BUILD_FRAMES` so the next tick re-enters Building. -/
theorem claim_C5_restart :
    ∀ s : HeartState, s.started = true →
      (on_key_press s Key.keyR).frame = 0 ∧
      (on_key_press s Key.keyR).completed = false ∧
      (on_key_press s Key.keyR).paused = false ∧
      (on_key_press s Key.keyR).dispX = [] ∧
      (on_key_press s Key.keyR).dispY = [] ∧
      (on_key_press s Key.keyR).dispK = 0 ∧
      (on_key_press s Key.keyR).dispMsg = Msg.noMsg ∧
      (on_key_press s Key.keyR).msgAlpha = 0 ∧
      (on_key_press s Key.keyR).started = true ∧
      (on_key_press s Key.keyR).frame < BUILD_FRAMES := by
  intro s h
  dsimp only [on_key_press]
  rw [h]
  norm_num [BUILD_FRAMES]

/-- C5 witness: restart applied to the concrete started state after 101
ticks (Pulsing, latch raised). -/
theorem claim_C5_restart_witness :
    (on_key_press (tick^[(101:ℕ)] s0) Key.keyR).frame = 0 ∧
    (on_key_press (tick^[(101:ℕ)] s0) Key.keyR).completed = false ∧
    (on_key_press (tick^[(101:ℕ)] s0) Key.keyR).paused = false ∧
    (on_key_press (tick^[(101:ℕ)] s0) Key.keyR).started = true := by
  obtain ⟨h1, h2, h3, -, -, -, -, -, h9, -⟩ :=
    claim_C5_restart (tick^[(101:ℕ)] s0) (tickN_props s0 rfl rfl rfl rfl 101).1
  exact ⟨h1, h2, h3, h9⟩

/-- C6: while started and paused, any number of ticks leaves the whole
state (frame counter, latch, every displayed value) unchanged; the space
key resumes with the held frame, and the next tick advances from exactly
that frame. -/
theorem claim_C6_pause :
    ∀ s : HeartState, s.started = true → s.paused = true →
      (∀ n : ℕ, tick^[n] s = s) ∧
      (on_key_press s Key.space).paused = false ∧
      (on_key_press s Key.space).frame = s.frame ∧
      (tick (on_key_press s Key.space)).frame = nextFrame s.frame := by
  intro s h1 h2
  have hfreeze : ∀ n : ℕ, tick^[n] s = s := by
    intro n
    induction n with
    | zero => rfl
    | succ n ih => rw [Function.iterate_succ_apply', ih, tick_paused_eq s h1 h2]
  have hresume : (on_key_press s Key.space).paused = false ∧
      (on_key_press s Key.space).frame = s.frame ∧
      (on_key_press s Key.space).started = true := by
    dsimp only [on_key_press]
    rw [h1, h2]
    split_ifs <;> simp_all
  refine ⟨hfreeze, hresume.1, hresume.2.1, ?_⟩
  rw [tick_frame _ hresume.2.2 hresume.1, hresume.2.1]

/-- C6 witness: the claim applied to the concrete paused state obtained
by pressing space on the started state. -/
theorem claim_C6_pause_witness :
    tick^[(10:ℕ)] (on_key_press s0 Key.space) = on_key_press s0 Key.space ∧
    (tick (on_key_press (on_key_press s0 Key.space) Key.space)).frame =
      nextFrame (on_key_press s0 Key.space).frame := by
  obtain ⟨hfreeze, -, -, hnext⟩ :=
    claim_C6_pause (on_key_press s0 Key.space) rfl rfl
  exact ⟨hfreeze 10, hnext⟩

/-- C1: every reachable state keeps the frame counter inside
`[0, BUILD_FRAMES + PULSE_FRAMES)`; a tick that would advance it to the
upper bound wraps back to `BUILD_FRAMES`; and once the Pulsing region
(`frame ≥ BUILD_FRAMES`) is entered, no sequence of ticks brings the
counter back below `BUILD_FRAMES`. -/
theorem claim_C1_frame_window :
    (∀ s : HeartState, Reachable s →
      s.frame < BUILD_FRAMES + PULSE_FRAMES) ∧
    (∀ s : HeartState, s.started = true → s.paused = false →
      s.frame + 1 = BUILD_FRAMES + PULSE_FRAMES →
      (tick s).frame = BUILD_FRAMES) ∧
    (∀ (s : HeartState) (n : ℕ), s.started = true →
      BUILD_FRAMES ≤ s.frame → BUILD_FRAMES ≤ (tick^[n] s).frame) := by
  refine ⟨?_, ?_, ?_⟩
  · intro s h
    induction h with
    | refl => norm_num [init, BUILD_FRAMES, PULSE_FRAMES]
    | tail hr hstep ih => exact step_frame_lt hstep ih
  · intro s h1 h2 h3
    rw [tick_frame s h1 h2]
    unfold nextFrame
    rw [if_pos h3.ge]
  · intro s n h1 hge
    induction n with
    | zero => exact hge
    | succ n ih =>
      have hst : ∀ m : ℕ, (tick^[m] s).started = true := by
        intro m
        induction m with
        | zero => exact h1
        | succ m ihm => rw [Function.iterate_succ_apply', tick_started]; exact ihm
      rw [Function.iterate_succ_apply']
      rcases Bool.eq_false_or_eq_true (tick^[n] s).paused with h2 | h2
      · rw [tick_paused_eq _ (hst n) h2]; exact ih
      · rw [tick_frame _ (hst n) h2]
        unfold nextFrame BUILD_FRAMES PULSE_FRAMES at *
        split_ifs <;> omega

/-- C1 witness: the invariant at the initial state, the wrap of the
concrete frame 159, and ticking five times inside Pulsing from frame
100. -/
theorem claim_C1_frame_window_witness :
    init.frame < BUILD_FRAMES + PULSE_FRAMES ∧
    (tick { s0 with frame := 159 }).frame = BUILD_FRAMES ∧
    BUILD_FRAMES ≤ (tick^[(5:ℕ)] { s0 with frame := 100 }).frame := by
  obtain ⟨h1, h2, h3⟩ := claim_C1_frame_window
  exact ⟨h1 init Relation.ReflTransGen.refl,
    h2 { s0 with frame := 159 } rfl rfl (by decide),
    h3 { s0 with frame := 100 } 5 rfl (by decide)⟩

/-- C7: speed keys clamp `fps` to `[1, 30]` (`speedUp` to
`min 30 (fps+1)`, `speedDown` to `max 1 (fps-1)`) and set the timer
interval to `1000/fps` milliseconds (integer division, as in the code);
40 `speedUp` presses from fps 3 give 30, 40 `speedDown` presses give 1;
and the per-tick math never depends on `fps`. -/
theorem claim_C7_speed :
    (∀ s : HeartState, s.started = true →
      (on_key_press s Key.up).fps = min 30 (s.fps + 1) ∧
      (on_key_press s Key.down).fps = max 1 (s.fps - 1) ∧
      (on_key_press s Key.up).interval = 1000 / min 30 (s.fps + 1) ∧
      (on_key_press s Key.down).interval = 1000 / max 1 (s.fps - 1) ∧
      (1 ≤ s.fps → s.fps ≤ 30 →
        1 ≤ (on_key_press s Key.up).fps ∧
        (on_key_press s Key.up).fps ≤ 30 ∧
        1 ≤ (on_key_press s Key.down).fps ∧
        (on_key_press s Key.down).fps ≤ 30)) ∧
    ((fun s => on_key_press s Key.up)^[40] s0).fps = 30 ∧
    ((fun s => on_key_press s Key.down)^[40] s0).fps = 1 ∧
    (∀ (s : HeartState) (f : ℕ),
      tick { s with fps := f } = { tick s with fps := f }) := by
  refine ⟨?_, ?_, ?_, tick_fps_comm⟩
  · intro s h
    have hu := (key_up_fps s h).1
    have hd := (key_down_fps s h).1
    refine ⟨hu, hd, ?_, ?_, fun _ _ => ?_⟩
    · dsimp only [on_key_press]; rw [h]; rfl
    · dsimp only [on_key_press]; rw [h]; rfl
    · rw [hu, hd]
      omega
  · rw [(up_iter_fps s0 rfl 40 (by norm_num)).1]; decide
  · rw [(down_iter_fps s0 rfl 40 (by norm_num)).1]; decide

/-- C7 witness: the clamp conjunct applied at the concrete started state
`s0` (fps 3). -/
theorem claim_C7_speed_witness :
    (on_key_press s0 Key.up).fps = min 30 (s0.fps + 1) ∧
    1 ≤ (on_key_press s0 Key.down).fps ∧
    ((fun s => on_key_press s Key.up)^[40] s0).fps = 30 := by
  obtain ⟨hc, hup, -, -⟩ := claim_C7_speed
  obtain ⟨h1, -, -, -, h5⟩ := hc s0 rfl
  exact ⟨h1, (h5 (by decide) (by decide)).2.2.1, hup⟩

/-- C8 counterexample: in the concrete started state `s0`, an Enter key
press is a no-op — it does not toggle `paused` as the claim says. -/
theorem claim_C8_counterexample :
    s0.started = true ∧ s0.paused = false ∧
    on_key_press s0 Key.enter = s0 ∧
    ¬((on_key_press s0 Key.enter).paused = !s0.paused) := by
  exact ⟨rfl, rfl, rfl, by decide⟩

/-- C8 (amended): Space or Enter both issue the start command when
`started` is false (yielding the Building phase with the frame counter
unchanged); once started, Space toggles `paused` while Enter is ignored
(a no-op). -/
theorem claim_C8_amended :
    (∀ s : HeartState, s.started = false →
      (on_key_press s Key.space).started = true ∧
      (on_key_press s Key.enter).started = true ∧
      (on_key_press s Key.space).frame = s.frame ∧
      (on_key_press s Key.enter).frame = s.frame) ∧
    (on_key_press init Key.space).started = true ∧
    (on_key_press init Key.space).frame < BUILD_FRAMES ∧
    (∀ s : HeartState, s.started = true →
      (on_key_press s Key.space).paused = !s.paused ∧
      on_key_press s Key.enter = s) := by
  refine ⟨?_, by decide, by decide, ?_⟩
  · intro s h
    dsimp only [on_key_press, start_anim]
    rw [h]
    exact ⟨rfl, rfl, rfl, rfl⟩
  · intro s h
    constructor
    · dsimp only [on_key_press]
      rw [h]
      split_ifs <;> simp_all
    · dsimp only [on_key_press]
      rw [h]
      rfl

/-- C8 amended witness: the amended claim at the initial state and at the
concrete started state `s0`. -/
theorem claim_C8_amended_witness :
    (on_key_press init Key.enter).started = true ∧
    (on_key_press s0 Key.space).paused = !s0.paused ∧
    on_key_press s0 Key.enter = s0 := by
  obtain ⟨hpre, -, -, hpost⟩ := claim_C8_amended
  exact ⟨(hpre init rfl).2.1, (hpost s0 rfl).1, (hpost s0 rfl).2⟩

/-- C10 counterexample: a motion event with missing pixel coordinates,
arriving while the pointer was hovering the button, does change the
hover highlight — it switches it off — contradicting the claim that such
an event never toggles the highlight. -/
theorem claim_C10_counterexample :
    ({ init with hoveringBtn := true } : HeartState).hoveringBtn = true ∧
    is_over_button (fun p => p) none none = false ∧
    (on_motion (fun p => p) none none
      { init with hoveringBtn := true }).hoveringBtn = false := by
  exact ⟨rfl, rfl, by decide⟩

/-- C10 (amended): when either pixel coordinate is missing, the button
hit test returns false, so a click never issues the start command, and a
motion event never turns the hover highlight on — it treats the pointer
as outside the button, so it switches an active highlight off and is a
no-op when the highlight is already off. -/
theorem claim_C10_amended :
    ∀ (tf : ℚ × ℚ → ℚ × ℚ) (ex ey : Option ℚ) (s : HeartState),
      ex = none ∨ ey = none →
      is_over_button tf ex ey = false ∧
      on_click tf ex ey s = s ∧
      ((on_motion tf ex ey s).hoveringBtn = true → s.hoveringBtn = true) ∧
      (s.hoveringBtn = false → on_motion tf ex ey s = s) := by
  intro tf ex ey s h
  have hover : is_over_button tf ex ey = false := by
    rcases h with h | h
    · subst h; rfl
    · subst h; cases ex <;> rfl
  refine ⟨hover, ?_, ?_, ?_⟩
  · dsimp only [on_click]
    rw [hover]
    split_ifs <;> simp_all
  · dsimp only [on_motion]
    rw [hover]
    split_ifs <;> simp_all
  · intro h'
    dsimp only [on_motion]
    rw [hover, h']
    split_ifs <;> simp_all

/-- C10 amended witness: the amended claim at a concrete missing-x event
on the initial state. -/
theorem claim_C10_amended_witness :
    is_over_button (fun p => p) none (some 0) = false ∧
    on_click (fun p => p) none (some 0) init = init ∧
    on_motion (fun p => p) none (some 0) init = init := by
  obtain ⟨h1, h2, -, h4⟩ :=
    claim_C10_amended (fun p => p) none (some 0) init (Or.inl rfl)
  exact ⟨h1, h2, h4 rfl⟩

end Valentine
